import Mathlib

/-!
# Verification of the AWS IoT ascoltatore adapter

Shallow embedding of `lib/awsiot_ascoltatore.js`: the adapter's mutable fields
(`_subs_counter`, `_ascoltatore`, `_client`, `_closed`) become an explicit
state record, and each operation (`subscribe`, `unsubscribe`, `publish`,
`close`) and transport event handler (`connect`, `message`, `error`, close
acknowledgment) becomes a function from state to state plus a list of emitted
effects (broker-level calls, emitted events, callback invocations).  Each
effect is tagged with its timing: `sync` when the source invokes it on the
current call stack, `deferred` when the source posts it to a later turn of the
event loop via `defer`.

Helper modules of the repository that are not provided under `src/`
(`lib/subs_counter.js`, `lib/trie_ascoltatore.js`, `lib/util.js`,
`lib/abstract_ascoltatore.js`) are modelled from the spec; each such
definition carries a doc comment saying so.
-/

namespace AWSIoT

/-- Modelled from the spec: the topic-naming collaborator
(`_subTopic` from `lib/abstract_ascoltatore.js`, not in `src/`).  The spec
treats translation as an out-of-scope injectable strategy, so it is modelled
as the identity on topic strings. -/
def subTopic (t : String) : String := t

/-- Modelled from the spec: the topic-naming collaborator
(`_pubTopic` from `lib/abstract_ascoltatore.js`, not in `src/`), modelled as
the identity on topic strings. -/
def pubTopic (t : String) : String := t

/-- Modelled from the spec: the topic-naming collaborator
(`_recvTopic` from `lib/abstract_ascoltatore.js`, not in `src/`), modelled as
the identity on topic strings. -/
def recvTopic (t : String) : String := t

/-- Modelled from the spec: `SubscriptionCounter` (`lib/subs_counter.js`, not
in `src/`).  Spec section 4.1: `add` increments a per-pattern count, `remove`
decrements and is a no-op at zero, `include` is true iff the count is
positive, `keys` is a snapshot of the patterns with positive count, `clear`
resets everything.  The counter is represented as the multiset (list) of
patterns currently added: the count of a pattern is its multiplicity. -/
abbrev SubsCounter := List String

def SubsCounter.countOf (c : SubsCounter) (t : String) : Nat := List.count t c

def SubsCounter.add (c : SubsCounter) (t : String) : SubsCounter := t :: c

def SubsCounter.remove (c : SubsCounter) (t : String) : SubsCounter := List.erase c t

def SubsCounter.include (c : SubsCounter) (t : String) : Bool := decide (t ∈ c)

def SubsCounter.keys (c : SubsCounter) : List String := c.dedup

def SubsCounter.clear (_ : SubsCounter) : SubsCounter := []

/-- Modelled from the spec: the registration view of `TopicDispatchEngine`
(`lib/trie_ascoltatore.js`, not in `src/`).  Spec section 4.2: callbacks are
stored keyed by exact pattern; re-registering the same callback for the same
pattern is idempotent (at most one entry); `unsubscribe` removes the specific
(pattern, callback) registration.  Callbacks are identified by opaque ids
(`Nat`); the wildcard-matching walk is not needed by any claim and is not
modelled. -/
abbrev Trie := List (String × Nat)

def Trie.subscribe (tr : Trie) (t : String) (cb : Nat) : Trie :=
  if (t, cb) ∈ tr then tr else (t, cb) :: tr

def Trie.unsubscribe (tr : Trie) (t : String) (cb : Nat) : Trie := tr.erase (t, cb)

def Trie.registrations (tr : Trie) (t : String) : Nat :=
  (tr.filter (fun e => e.1 == t)).length

/-- Timing of an emitted effect: `sync` on the current call stack, `deferred`
posted to a later turn of the event loop. -/
inductive Timing where
  | sync
  | deferred
deriving DecidableEq, Repr

/-- The observable actions of the adapter: broker-level transport calls,
emitted adapter events, the hand-off to the dispatch engine, and the
invocation of a completion callback. -/
inductive Action where
  | brokerSub (topic : String) (qos : Nat)
  | brokerUnsub (topic : String)
  | brokerPub (topic : String) (message : String) (qos : Nat) (retain : Bool)
  | brokerEnd
  | emitError (e : String)
  | emitClosed
  | dispatch (topic : String) (payload : String)
  | done
deriving DecidableEq, Repr

structure Effect where
  act : Action
  timing : Timing
deriving DecidableEq, Repr

/-- Modelled from the spec: `util.defer` (`lib/util.js`, not in `src/`).
The spec describes `defer`-based completions as deferred invocations posted
to a later turn of execution (sections 4.5, 5). -/
def deferCall (a : Action) : Effect := ⟨a, Timing.deferred⟩

/-- Modelled from the spec: `util.wrap` (`lib/util.js`, not in `src/`).
`wrap(done)()` is a null-safe immediate invocation of `done` on the current
call stack: spec section 4.6 describes the `wrap`-based completion of a
second `close` as invoking `done` immediately, in contrast to the
`defer`-based completions it calls deferred. -/
def wrapCall (a : Action) : Effect := ⟨a, Timing.sync⟩

/-- Errors an adapter operation can raise synchronously.  `closedError` is
the "closed" error raised by `_raiseIfClosed`; `typeError` is the JavaScript
runtime type error raised by dereferencing an absent (`undefined`)
`_client` handle. -/
inductive JsError where
  | closedError
  | typeError
deriving DecidableEq, Repr

/-- The adapter's state: the fields of `AWSIoTAscoltatore`.  `_client` is
`some ()` while the transport handle exists and `none` after it is deleted.
`_closed` is the closed flag consulted by `_raiseIfClosed` and `close`. -/
structure AdapterState where
  _subs_counter : SubsCounter
  _ascoltatore : Trie
  _client : Option Unit
  _closed : Bool
deriving DecidableEq, Repr

/-- The state produced by the constructor: empty counter, empty trie,
transport handle created by `_startConn`, not closed. -/
def initialState : AdapterState := ⟨[], [], some (), false⟩

/-- Result of one adapter operation: the post state, the effects emitted
synchronously during the call, and the error it raised, if any.  State
mutations performed before the point of a raised error are kept, matching
JavaScript exception semantics. -/
structure OpResult where
  state : AdapterState
  effects : List Effect
  err : Option JsError
deriving DecidableEq, Repr

/-- Publish options: each field may be present or absent
(`undefined`). -/
structure PubOptions where
  qos : Option Nat
  retain : Option Bool
deriving DecidableEq, Repr

/-- Line 134: `(options && (options.qos !== undefined)) ? options.qos : 1`. -/
def effectiveQos : Option PubOptions → Nat
  | some o =>
    match o.qos with
    | some q => q
    | none => 1
  | none => 1

/-- Line 135: `(options && (options.retain !== undefined)) ? options.retain :
false`. -/
def effectiveRetain : Option PubOptions → Bool
  | some o =>
    match o.retain with
    | some r => r
    | none => false
  | none => false

/-- `AWSIoTAscoltatore.prototype.subscribe` (lines 107-128): raise if closed;
if the counter does not include the topic, call the transport's subscribe
with qos 1 (the ack later defers `done`), else defer `done` directly; then
unconditionally `add` on the counter and `subscribe` on the trie.  The
include check reads the counter before the `add`. -/
def subscribe (s : AdapterState) (topic : String) (cb : Nat) : OpResult :=
  if s._closed then ⟨s, [], some JsError.closedError⟩
  else if SubsCounter.include s._subs_counter topic then
    ⟨{ s with _subs_counter := SubsCounter.add s._subs_counter topic,
              _ascoltatore := Trie.subscribe s._ascoltatore topic cb },
      [deferCall Action.done], none⟩
  else
    match s._client with
    | none => ⟨s, [], some JsError.typeError⟩
    | some _ =>
      ⟨{ s with _subs_counter := SubsCounter.add s._subs_counter topic,
                _ascoltatore := Trie.subscribe s._ascoltatore topic cb },
        [⟨Action.brokerSub (subTopic topic) 1, Timing.sync⟩], none⟩

/-- The acknowledgment callback the source passes to the transport subscribe
(lines 117-120): it defers `done`. -/
def subscribeAck : List Effect := [deferCall Action.done]

/-- `AWSIoTAscoltatore.prototype.unsubscribe` (lines 142-162): raise if
closed; `unsubscribe` on the trie, `remove` on the counter; if the counter
still includes the topic, defer `done`; else call the transport's
unsubscribe (the ack later defers `done` via `newDone`). -/
def unsubscribe (s : AdapterState) (topic : String) (cb : Nat) : OpResult :=
  if s._closed then ⟨s, [], some JsError.closedError⟩
  else
    let s1 := { s with _ascoltatore := Trie.unsubscribe s._ascoltatore topic cb,
                       _subs_counter := SubsCounter.remove s._subs_counter topic }
    if SubsCounter.include s1._subs_counter topic then
      ⟨s1, [deferCall Action.done], none⟩
    else
      match s._client with
      | none => ⟨s1, [], some JsError.typeError⟩
      | some _ => ⟨s1, [⟨Action.brokerUnsub (subTopic topic), Timing.sync⟩], none⟩

/-- The `newDone` acknowledgment callback of unsubscribe (lines 147-150): it
defers `done`. -/
def unsubscribeAck : List Effect := [deferCall Action.done]

/-- `AWSIoTAscoltatore.prototype.publish` (lines 130-140): raise if closed;
call the transport's publish with the translated topic, the message, and the
effective qos and retain options. -/
def publish (s : AdapterState) (topic message : String) (options : Option PubOptions) :
    OpResult :=
  if s._closed then ⟨s, [], some JsError.closedError⟩
  else
    match s._client with
    | none => ⟨s, [], some JsError.typeError⟩
    | some _ =>
      ⟨s,
        [⟨Action.brokerPub (pubTopic topic) message (effectiveQos options)
            (effectiveRetain options), Timing.sync⟩], none⟩

/-- The acknowledgment callback the source passes to the transport publish
(lines 136-139): `wrap(done)()`, a synchronous invocation of `done` on the
acknowledgment callback's own call stack. -/
def publishAck : List Effect := [wrapCall Action.done]

/-- `AWSIoTAscoltatore.prototype.close` (lines 164-180): if not closed, clear
the counter, then register the close listener and call `end()` on the
transport handle; otherwise invoke `done` immediately via `wrap`. -/
def close (s : AdapterState) : OpResult :=
  if s._closed then ⟨s, [wrapCall Action.done], none⟩
  else
    let s1 := { s with _subs_counter := SubsCounter.clear s._subs_counter }
    match s._client with
    | none => ⟨s1, [], some JsError.typeError⟩
    | some _ => ⟨s1, [⟨Action.brokerEnd, Timing.sync⟩], none⟩

/-- The once-`close` listener registered by `close` (lines 169-175): on the
transport's close acknowledgment it closes the trie, deletes the handle,
emits "closed" (which sets the closed flag: modelled from the spec's Closed
state, `lib/abstract_ascoltatore.js` not being in `src/`), and defers
`done`. -/
def closeAck (s : AdapterState) : AdapterState × List Effect :=
  ({ s with _ascoltatore := [], _client := none, _closed := true },
   [⟨Action.emitClosed, Timing.sync⟩, deferCall Action.done])

/-- The transport message handler (lines 69-76): it emits no synchronous
dispatch; the hand-off of the translated topic and payload to the dispatch
engine is wrapped in `defer`. -/
def messageHandler (topic payload : String) : List Effect :=
  [deferCall (Action.dispatch (recvTopic topic) payload)]

/-- The transport error handler (lines 77-82): delete the handle, emit
"error". -/
def errorHandler (s : AdapterState) (e : String) : AdapterState × List Effect :=
  ({ s with _client := none }, [⟨Action.emitError e, Timing.sync⟩])

/-- `reconnectTopics` (lines 87-105) as run by the connect handler
(lines 62-67): a broker-level subscribe with qos 1 for each pattern in the
counter's `keys()` snapshot. -/
def connectHandler (s : AdapterState) : List Effect :=
  (SubsCounter.keys s._subs_counter).map
    (fun t => ⟨Action.brokerSub (subTopic t) 1, Timing.sync⟩)

/-- C6: a transport error event deletes the transport handle and emits an
"error" event carrying the error, leaves the subscription counter, the
dispatch trie and the closed flag unchanged, and its only effect is that
"error" emission — in particular no broker call and no reconnection
attempt. -/
theorem error_event_frame (s : AdapterState) (e : String) :
    (errorHandler s e).1._client = none ∧
    (errorHandler s e).1._subs_counter = s._subs_counter ∧
    (errorHandler s e).1._ascoltatore = s._ascoltatore ∧
    (errorHandler s e).1._closed = s._closed ∧
    (errorHandler s e).2 = [⟨Action.emitError e, Timing.sync⟩] :=
  ⟨rfl, rfl, rfl, rfl, rfl⟩

/-- C3: publish forwards exactly one transport publish carrying the
translated topic, the message unchanged, and the effective options: qos
defaults to 1 when `options` is absent or omits `qos`, retain defaults to
`false` when absent or omitted, and explicitly present fields are forwarded
unchanged. -/
theorem publish_defaults (s : AdapterState) (topic message : String)
    (o : Option PubOptions) (h1 : s._closed = false) (h2 : s._client = some ()) :
    (publish s topic message o).effects =
      [⟨Action.brokerPub (pubTopic topic) message (effectiveQos o) (effectiveRetain o),
        Timing.sync⟩] ∧
    (o = none → effectiveQos o = 1 ∧ effectiveRetain o = false) ∧
    (∀ po, o = some po →
      (po.qos = none → effectiveQos o = 1) ∧
      (∀ q, po.qos = some q → effectiveQos o = q) ∧
      (po.retain = none → effectiveRetain o = false) ∧
      (∀ b, po.retain = some b → effectiveRetain o = b)) := by
  refine ⟨by simp [publish, h1, h2], ?_, ?_⟩
  · rintro rfl
    exact ⟨rfl, rfl⟩
  · rintro po rfl
    refine ⟨fun hq => ?_, fun q hq => ?_, fun hr => ?_, fun b hr => ?_⟩
    · simp [effectiveQos, hq]
    · simp [effectiveQos, hq]
    · simp [effectiveRetain, hr]
    · simp [effectiveRetain, hr]

/-- Witness for C3 at a concrete closed state and absent options. -/
theorem publish_defaults_witness :
    initialState._closed = false ∧ initialState._client = some () ∧
    ((publish initialState "a/b" "m" none).effects =
      [⟨Action.brokerPub (pubTopic "a/b") "m" (effectiveQos none) (effectiveRetain none),
        Timing.sync⟩] ∧
    ((none : Option PubOptions) = none →
      effectiveQos none = 1 ∧ effectiveRetain none = false) ∧
    (∀ po, (none : Option PubOptions) = some po →
      (po.qos = none → effectiveQos none = 1) ∧
      (∀ q, po.qos = some q → effectiveQos none = q) ∧
      (po.retain = none → effectiveRetain none = false) ∧
      (∀ b, po.retain = some b → effectiveRetain none = b))) :=
  ⟨rfl, rfl, publish_defaults initialState "a/b" "m" none rfl rfl⟩

/-- The handle field is never (re)created by an adapter operation:
`_startConn` is invoked only from the constructor. -/
lemma subscribe_client (s : AdapterState) (t : String) (cb : Nat) :
    (subscribe s t cb).state._client = s._client := by
  unfold subscribe
  split
  · rfl
  · split
    · rfl
    · split <;> rfl

lemma unsubscribe_client (s : AdapterState) (t : String) (cb : Nat) :
    (unsubscribe s t cb).state._client = s._client := by
  unfold unsubscribe
  split
  · rfl
  · split <;> (dsimp only; split <;> rfl)

lemma publish_client (s : AdapterState) (t m : String) (o : Option PubOptions) :
    (publish s t m o).state._client = s._client := by
  unfold publish
  split
  · rfl
  · split <;> rfl

lemma close_client (s : AdapterState) :
    (close s).state._client = s._client := by
  unfold close
  split
  · rfl
  · split <;> rfl

/-- C8: any adapter operation invoked once the closed flag is set fails fast
with the closed error raised by the guard: the state is unchanged and no
effect is emitted, so the (possibly already discarded) transport handle is
never accessed. -/
theorem closed_operations_fail_fast (s : AdapterState) (t m : String) (cb : Nat)
    (o : Option PubOptions) (h : s._closed = true) :
    subscribe s t cb = ⟨s, [], some JsError.closedError⟩ ∧
    unsubscribe s t cb = ⟨s, [], some JsError.closedError⟩ ∧
    publish s t m o = ⟨s, [], some JsError.closedError⟩ := by
  refine ⟨?_, ?_, ?_⟩ <;> simp [subscribe, unsubscribe, publish, h]

/-- Witness for C8 at a closed state whose handle is already discarded. -/
theorem closed_operations_fail_fast_witness :
    (⟨[], [], none, true⟩ : AdapterState)._closed = true ∧
    (subscribe ⟨[], [], none, true⟩ "a" 1 =
      ⟨⟨[], [], none, true⟩, [], some JsError.closedError⟩ ∧
    unsubscribe ⟨[], [], none, true⟩ "a" 1 =
      ⟨⟨[], [], none, true⟩, [], some JsError.closedError⟩ ∧
    publish ⟨[], [], none, true⟩ "a" "m" none =
      ⟨⟨[], [], none, true⟩, [], some JsError.closedError⟩) :=
  ⟨rfl, closed_operations_fail_fast ⟨[], [], none, true⟩ "a" "m" 1 none rfl⟩

/-- C7: close is idempotent.  From a non-closed state with a live handle, the
first close completes without error and issues exactly one broker-level end;
after the transport's close acknowledgment the adapter is closed with no
handle; a second close completes without error, leaves the state (counter,
trie, handle, flag) untouched, issues no further broker call, and only
invokes done. -/
theorem close_idempotent (s : AdapterState) (h1 : s._closed = false)
    (h2 : s._client = some ()) :
    (close s).err = none ∧
    (close s).effects = [⟨Action.brokerEnd, Timing.sync⟩] ∧
    (closeAck (close s).state).1._closed = true ∧
    (closeAck (close s).state).1._client = none ∧
    (close (closeAck (close s).state).1).err = none ∧
    (close (closeAck (close s).state).1).state = (closeAck (close s).state).1 ∧
    (close (closeAck (close s).state).1).effects = [wrapCall Action.done] := by
  have hc : close s =
      ⟨{ s with _subs_counter := [] }, [⟨Action.brokerEnd, Timing.sync⟩], none⟩ := by
    simp [close, h1, h2, SubsCounter.clear]
  refine ⟨by rw [hc], by rw [hc], ?_, ?_, ?_, ?_, ?_⟩ <;> simp [hc, closeAck, close]

/-- Witness for C7 at the constructor state. -/
theorem close_idempotent_witness :
    initialState._closed = false ∧ initialState._client = some () ∧
    ((close initialState).err = none ∧
    (close initialState).effects = [⟨Action.brokerEnd, Timing.sync⟩] ∧
    (closeAck (close initialState).state).1._closed = true ∧
    (closeAck (close initialState).state).1._client = none ∧
    (close (closeAck (close initialState).state).1).err = none ∧
    (close (closeAck (close initialState).state).1).state =
      (closeAck (close initialState).state).1 ∧
    (close (closeAck (close initialState).state).1).effects = [wrapCall Action.done]) :=
  ⟨rfl, rfl, close_idempotent initialState rfl rfl⟩

/-- C10: after the error handler has deleted the transport handle, a
subscribe on a pattern with count 0, any publish, and any close dereference
the absent handle and fail with the runtime type error — which is distinct
from the closed error — and no adapter operation ever recreates the
handle. -/
theorem absent_handle_dereference (s : AdapterState) (e t m : String) (cb : Nat)
    (o : Option PubOptions) (h1 : s._closed = false)
    (h2 : SubsCounter.countOf s._subs_counter t = 0) :
    (errorHandler s e).1._client = none ∧
    (subscribe (errorHandler s e).1 t cb).err = some JsError.typeError ∧
    (publish (errorHandler s e).1 t m o).err = some JsError.typeError ∧
    (close (errorHandler s e).1).err = some JsError.typeError ∧
    JsError.typeError ≠ JsError.closedError ∧
    (∀ s' : AdapterState, ∀ t' m' : String, ∀ cb' : Nat, ∀ o' : Option PubOptions,
      (subscribe s' t' cb').state._client = s'._client ∧
      (unsubscribe s' t' cb').state._client = s'._client ∧
      (publish s' t' m' o').state._client = s'._client ∧
      (close s').state._client = s'._client) := by
  have hinc : SubsCounter.include s._subs_counter t = false := by
    simp only [SubsCounter.include, decide_eq_false_iff_not]
    exact List.count_eq_zero.mp h2
  refine ⟨rfl, ?_, ?_, ?_, by decide, ?_⟩
  · simp [subscribe, errorHandler, h1, hinc]
  · simp [publish, errorHandler, h1]
  · simp [close, errorHandler, h1]
  · intro s' t' m' cb' o'
    exact ⟨subscribe_client s' t' cb', unsubscribe_client s' t' cb',
      publish_client s' t' m' o', close_client s'⟩

/-- Witness for C10: an error event at the constructor state, then the
operations on the now-absent handle. -/
theorem absent_handle_dereference_witness :
    initialState._closed = false ∧
    SubsCounter.countOf initialState._subs_counter "a" = 0 ∧
    ((errorHandler initialState "boom").1._client = none ∧
    (subscribe (errorHandler initialState "boom").1 "a" 1).err = some JsError.typeError ∧
    (publish (errorHandler initialState "boom").1 "a" "m" none).err =
      some JsError.typeError ∧
    (close (errorHandler initialState "boom").1).err = some JsError.typeError ∧
    JsError.typeError ≠ JsError.closedError ∧
    (∀ s' : AdapterState, ∀ t' m' : String, ∀ cb' : Nat, ∀ o' : Option PubOptions,
      (subscribe s' t' cb').state._client = s'._client ∧
      (unsubscribe s' t' cb').state._client = s'._client ∧
      (publish s' t' m' o').state._client = s'._client ∧
      (close s').state._client = s'._client)) :=
  ⟨rfl, rfl, absent_handle_dereference initialState "boom" "a" "m" 1 none rfl rfl⟩

/-- C4: the transport message handler hands the translated topic and the
payload to the dispatch engine only through a deferred task: its effect list
is exactly one deferred dispatch of the translated-to-local topic, and it
contains no synchronously-timed effect at all. -/
theorem message_dispatch_deferred (topic payload : String) :
    messageHandler topic payload =
      [⟨Action.dispatch (recvTopic topic) payload, Timing.deferred⟩] ∧
    (messageHandler topic payload).countP (fun eff => eff.timing == Timing.sync) = 0 :=
  ⟨rfl, rfl⟩

/-- Counterexample to C5 as stated: the acknowledgment callback the publish
passes to the transport invokes done through `wrap` on the acknowledgment
callback's own call stack — a synchronously-timed invocation, not a deferred
one. -/
theorem publish_done_sync_cex :
    publishAck = [wrapCall Action.done] ∧
    (wrapCall Action.done).act = Action.done ∧
    (wrapCall Action.done).timing = Timing.sync ∧
    Timing.sync ≠ Timing.deferred :=
  ⟨rfl, rfl, rfl, by decide⟩

/-- C5 amended: done is invoked only once the transport acknowledges — the
publish call itself emits no done invocation — but inside the acknowledgment
callback it is invoked synchronously through the null-safe `wrap`, not
deferred. -/
theorem publish_done_after_ack (s : AdapterState) (t m : String)
    (o : Option PubOptions) (h1 : s._closed = false) (h2 : s._client = some ()) :
    (publish s t m o).effects.countP (fun eff => eff.act == Action.done) = 0 ∧
    publishAck = [⟨Action.done, Timing.sync⟩] := by
  refine ⟨?_, rfl⟩
  simp [publish, h1, h2, List.countP_cons]

/-- Witness for the amended C5 at the constructor state. -/
theorem publish_done_after_ack_witness :
    initialState._closed = false ∧ initialState._client = some () ∧
    ((publish initialState "a" "m" none).effects.countP
        (fun eff => eff.act == Action.done) = 0 ∧
    publishAck = [⟨Action.done, Timing.sync⟩]) :=
  ⟨rfl, rfl, publish_done_after_ack initialState "a" "m" none rfl rfl⟩

/-- Modelled from the spec: the joint-completion behavior of the iteration
helper used by `reconnectTopics` (the steed dependency, external to the
repository).  Spec section 4.3: the per-pattern subscribes are dispatched in
parallel and the final callback — which emits "ready" — runs exactly when
every per-pattern acknowledgment callback has been invoked.  `pending` counts
outstanding acknowledgments, `ready` records whether the final callback has
run (immediately, when the snapshot is empty). -/
structure ReplayState where
  pending : Nat
  ready : Bool
deriving DecidableEq, Repr

def startReplay (keys : List String) : ReplayState :=
  ⟨keys.length, decide (keys.length = 0)⟩

def replayAck (r : ReplayState) : ReplayState :=
  ⟨r.pending - 1, r.ready || decide (r.pending - 1 = 0)⟩

lemma replay_iterate (keys : List String) (k : Nat) :
    replayAck^[k] (startReplay keys) =
      ⟨keys.length - k, decide (keys.length ≤ k)⟩ := by
  induction k with
  | zero => simp [startReplay, Nat.le_zero]
  | succ k ih =>
    rw [Function.iterate_succ_apply', ih]
    simp only [replayAck]
    congr 1
    have hiff : (keys.length ≤ k ∨ keys.length - k - 1 = 0) ↔ keys.length ≤ k + 1 := by
      omega
    calc (decide (keys.length ≤ k) || decide (keys.length - k - 1 = 0))
        = decide (keys.length ≤ k ∨ keys.length - k - 1 = 0) := (Bool.decide_or _ _).symm
      _ = decide (keys.length ≤ k + 1) := decide_eq_decide.mpr hiff

/-- C2: on a transport connect event the adapter replays a broker-level
subscribe with qos 1 for exactly the patterns in the counter's keys snapshot
(every emitted effect is a qos-1 subscribe of a snapshot pattern, every
snapshot pattern is subscribed, and the numbers agree), and "ready" is not
signaled after any proper prefix of the acknowledgments, only once all of
them have arrived. -/
theorem reconnect_replays_snapshot (s : AdapterState) :
    (∀ eff ∈ connectHandler s, ∃ t ∈ SubsCounter.keys s._subs_counter,
      eff = ⟨Action.brokerSub (subTopic t) 1, Timing.sync⟩) ∧
    (∀ t ∈ SubsCounter.keys s._subs_counter,
      (⟨Action.brokerSub (subTopic t) 1, Timing.sync⟩ : Effect) ∈ connectHandler s) ∧
    (connectHandler s).length = (SubsCounter.keys s._subs_counter).length ∧
    (∀ k, k < (SubsCounter.keys s._subs_counter).length →
      (replayAck^[k] (startReplay (SubsCounter.keys s._subs_counter))).ready = false) ∧
    (replayAck^[(SubsCounter.keys s._subs_counter).length]
      (startReplay (SubsCounter.keys s._subs_counter))).ready = true := by
  refine ⟨?_, ?_, ?_, ?_, ?_⟩
  · intro eff heff
    rcases List.mem_map.mp heff with ⟨t, ht, rfl⟩
    exact ⟨t, ht, rfl⟩
  · intro t ht
    exact List.mem_map.mpr ⟨t, ht, rfl⟩
  · exact List.length_map _ _
  · intro k hk
    rw [replay_iterate]
    simpa using Nat.not_le.mpr hk
  · rw [replay_iterate]
    simp

/-- Witness for C2 at a state holding two counted patterns. -/
theorem reconnect_replays_snapshot_witness :
    (∀ eff ∈ connectHandler ⟨["a", "b"], [], some (), false⟩,
      ∃ t ∈ SubsCounter.keys (⟨["a", "b"], [], some (), false⟩ : AdapterState)._subs_counter,
        eff = ⟨Action.brokerSub (subTopic t) 1, Timing.sync⟩) ∧
    (∀ t ∈ SubsCounter.keys (⟨["a", "b"], [], some (), false⟩ : AdapterState)._subs_counter,
      (⟨Action.brokerSub (subTopic t) 1, Timing.sync⟩ : Effect) ∈
        connectHandler ⟨["a", "b"], [], some (), false⟩) ∧
    (connectHandler ⟨["a", "b"], [], some (), false⟩).length =
      (SubsCounter.keys (⟨["a", "b"], [], some (), false⟩ : AdapterState)._subs_counter).length ∧
    (∀ k, k < (SubsCounter.keys (⟨["a", "b"], [], some (), false⟩ : AdapterState)._subs_counter).length →
      (replayAck^[k] (startReplay (SubsCounter.keys
        (⟨["a", "b"], [], some (), false⟩ : AdapterState)._subs_counter))).ready = false) ∧
    (replayAck^[(SubsCounter.keys (⟨["a", "b"], [], some (), false⟩ : AdapterState)._subs_counter).length]
      (startReplay (SubsCounter.keys
        (⟨["a", "b"], [], some (), false⟩ : AdapterState)._subs_counter))).ready = true :=
  reconnect_replays_snapshot ⟨["a", "b"], [], some (), false⟩

/-- One adapter call in an interleaving: a subscribe or an unsubscribe of
subscriber `cb` on pattern `t`. -/
inductive Event where
  | sub (t : String) (cb : Nat)
  | unsub (t : String) (cb : Nat)
deriving DecidableEq, Repr

/-- Run a sequence of subscribe/unsubscribe calls, threading the state and
accumulating every emitted effect. -/
def runEvents (s : AdapterState) : List Event → AdapterState × List Effect
  | [] => (s, [])
  | Event.sub t cb :: evs =>
    let r := subscribe s t cb
    let rest := runEvents r.state evs
    (rest.1, r.effects ++ rest.2)
  | Event.unsub t cb :: evs =>
    let r := unsubscribe s t cb
    let rest := runEvents r.state evs
    (rest.1, r.effects ++ rest.2)

/-- Specification-side ghost state: the list of currently registered
(pattern, subscriber) pairs. -/
abbrev Live := List (String × Nat)

/-- The spec's per-pattern subscriber count: how many registered pairs carry
pattern `t`. -/
def liveCount (l : Live) (t : String) : Nat :=
  (l.filter (fun p => p.1 == t)).length

/-- Well-formed interleavings by distinct subscribers: a subscriber
subscribes a pattern only while not registered for it and unsubscribes it
only while registered, so every unsubscribe matches an earlier subscribe. -/
inductive WF : List Event → Live → Prop
  | nil (l : Live) : WF [] l
  | sub {t : String} {cb : Nat} {evs : List Event} {l : Live} :
      (t, cb) ∉ l → WF evs ((t, cb) :: l) → WF (Event.sub t cb :: evs) l
  | unsub {t : String} {cb : Nat} {evs : List Event} {l : Live} :
      (t, cb) ∈ l → WF evs (l.erase (t, cb)) → WF (Event.unsub t cb :: evs) l

/-- Ghost state after a sequence of events. -/
def liveAfter : List Event → Live → Live
  | [], l => l
  | Event.sub t cb :: evs, l => liveAfter evs ((t, cb) :: l)
  | Event.unsub t cb :: evs, l => liveAfter evs (l.erase (t, cb))

/-- Coupling invariant between the adapter state and the ghost registration
list: open adapter, live handle, the counter's per-pattern count equals the
number of live registrations of that pattern, and the trie holds exactly the
live registrations (up to order). -/
def Inv (s : AdapterState) (l : Live) : Prop :=
  s._closed = false ∧ s._client = some () ∧
  (∀ p, SubsCounter.countOf s._subs_counter p = liveCount l p) ∧
  s._ascoltatore.Perm l

/-- Number of 0→1 transitions of pattern `t`'s subscriber count along the
events: subscribes of `t` issued while no subscriber of `t` is live. -/
def specSubTransitions (t : String) : List Event → Live → Nat
  | [], _ => 0
  | Event.sub u cb :: evs, l =>
    (if u = t ∧ liveCount l t = 0 then 1 else 0) +
      specSubTransitions t evs ((u, cb) :: l)
  | Event.unsub u cb :: evs, l => specSubTransitions t evs (l.erase (u, cb))

/-- Number of 1→0 transitions of pattern `t`'s subscriber count along the
events: unsubscribes of `t` issued while exactly one subscriber of `t` is
live. -/
def specUnsubTransitions (t : String) : List Event → Live → Nat
  | [], _ => 0
  | Event.sub u cb :: evs, l => specUnsubTransitions t evs ((u, cb) :: l)
  | Event.unsub u cb :: evs, l =>
    (if u = t ∧ liveCount l t = 1 then 1 else 0) +
      specUnsubTransitions t evs (l.erase (u, cb))

/-- Number of broker-level subscribe calls for (the translation of) pattern
`t` among the effects. -/
def brokerSubCount (t : String) (effs : List Effect) : Nat :=
  effs.countP (fun e =>
    match e.act with
    | Action.brokerSub u _ => u == subTopic t
    | _ => false)

/-- Number of broker-level unsubscribe calls for (the translation of)
pattern `t` among the effects. -/
def brokerUnsubCount (t : String) (effs : List Effect) : Nat :=
  effs.countP (fun e =>
    match e.act with
    | Action.brokerUnsub u => u == subTopic t
    | _ => false)

lemma liveCount_cons (a : String × Nat) (l : Live) (t : String) :
    liveCount (a :: l) t = liveCount l t + (if a.1 = t then 1 else 0) := by
  by_cases h : a.1 = t <;> simp [liveCount, List.filter_cons, h]

lemma liveCount_pos_of_mem {t : String} {cb : Nat} {l : Live} (h : (t, cb) ∈ l) :
    0 < liveCount l t := by
  have hf : (t, cb) ∈ l.filter (fun p => p.1 == t) :=
    List.mem_filter.mpr ⟨h, by simp⟩
  unfold liveCount
  exact List.length_pos.mpr (List.ne_nil_of_mem hf)

lemma liveCount_erase {u : String} {cb : Nat} {l : Live} (h : (u, cb) ∈ l)
    (t : String) :
    liveCount (l.erase (u, cb)) t = liveCount l t - (if u = t then 1 else 0) := by
  induction l with
  | nil => cases h
  | cons a l ih =>
    by_cases ha : a = (u, cb)
    · subst ha
      rw [List.erase_cons_head, liveCount_cons]
      simp
    · have hmem : (u, cb) ∈ l := by
        rcases List.mem_cons.mp h with h1 | h1
        · exact absurd h1.symm ha
        · exact h1
      rw [List.erase_cons_tail (by simp [ha]),
        liveCount_cons, liveCount_cons, ih hmem]
      have hp : 0 < liveCount l u := liveCount_pos_of_mem hmem
      by_cases hu : u = t
      · subst hu
        simp only [if_pos rfl]
        by_cases hat : a.1 = u
        all_goals simp [hat]
        all_goals omega
      · simp only [if_neg hu]
        omega

lemma countOf_add (c : SubsCounter) (u p : String) :
    SubsCounter.countOf (SubsCounter.add c u) p =
      SubsCounter.countOf c p + (if u = p then 1 else 0) := by
  unfold SubsCounter.countOf SubsCounter.add
  rw [List.count_cons]
  by_cases h : u = p <;> simp [h]

lemma countOf_remove (c : SubsCounter) (u p : String) :
    SubsCounter.countOf (SubsCounter.remove c u) p =
      SubsCounter.countOf c p - (if u = p then 1 else 0) := by
  unfold SubsCounter.countOf SubsCounter.remove
  rw [List.count_erase]
  by_cases h : u = p <;> simp [h]

lemma include_iff (c : SubsCounter) (p : String) :
    SubsCounter.include c p = true ↔ 0 < SubsCounter.countOf c p := by
  unfold SubsCounter.include SubsCounter.countOf
  simp only [decide_eq_true_eq]
  exact List.count_pos_iff.symm

lemma registrations_eq_liveCount {tr : Trie} {l : Live} (h : tr.Perm l)
    (t : String) : Trie.registrations tr t = liveCount l t := by
  unfold Trie.registrations liveCount
  exact (h.filter _).length_eq

lemma perm_erase_lawful {α : Type} [BEq α] [LawfulBEq α] (a : α) {l₁ l₂ : List α}
    (p : l₁.Perm l₂) : (l₁.erase a).Perm (l₂.erase a) := by
  induction p with
  | nil => simp
  | cons b p ih =>
    by_cases h : b == a
    · rw [List.erase_cons, List.erase_cons, if_pos h, if_pos h]
      assumption
    · rw [List.erase_cons, List.erase_cons, if_neg h, if_neg h]
      exact ih.cons b
  | swap b c l =>
    by_cases h1 : c == a <;> by_cases h2 : b == a
    · have hbc : b = c := by rw [eq_of_beq h2, eq_of_beq h1]
      subst hbc
      simp [List.erase_cons, h1]
    · simp [List.erase_cons, h1, h2]
    · simp [List.erase_cons, h1, h2]
    · simp only [List.erase_cons, if_neg h1, if_neg h2]
      exact List.Perm.swap b c _
  | trans p1 p2 ih1 ih2 => exact ih1.trans ih2

lemma subscribe_step {s : AdapterState} {l : Live} {t : String} {cb : Nat}
    (hinv : Inv s l) (hnot : (t, cb) ∉ l) :
    (subscribe s t cb).err = none ∧
    Inv (subscribe s t cb).state ((t, cb) :: l) ∧
    (subscribe s t cb).effects =
      (if liveCount l t = 0 then [⟨Action.brokerSub (subTopic t) 1, Timing.sync⟩]
       else [deferCall Action.done]) := by
  obtain ⟨hcl, hcli, hcount, hperm⟩ := hinv
  have hnotr : (t, cb) ∉ s._ascoltatore := fun hm => hnot (hperm.mem_iff.mp hm)
  have htr : Trie.subscribe s._ascoltatore t cb = (t, cb) :: s._ascoltatore := by
    simp [Trie.subscribe, hnotr]
  have hinv' : Inv
      { s with _subs_counter := SubsCounter.add s._subs_counter t,
               _ascoltatore := Trie.subscribe s._ascoltatore t cb }
      ((t, cb) :: l) := by
    refine ⟨hcl, hcli, ?_, ?_⟩
    · intro p
      show SubsCounter.countOf (SubsCounter.add s._subs_counter t) p = _
      rw [countOf_add, hcount p, liveCount_cons]
    · show (Trie.subscribe s._ascoltatore t cb).Perm ((t, cb) :: l)
      rw [htr]
      exact hperm.cons _
  by_cases hz : liveCount l t = 0
  · have hinc : SubsCounter.include s._subs_counter t = false := by
      simp only [SubsCounter.include, decide_eq_false_iff_not]
      intro hm
      have hpos := List.count_pos_iff.mpr hm
      have := hcount t
      unfold SubsCounter.countOf at this
      omega
    have hs : subscribe s t cb =
        ⟨{ s with _subs_counter := SubsCounter.add s._subs_counter t,
                  _ascoltatore := Trie.subscribe s._ascoltatore t cb },
          [⟨Action.brokerSub (subTopic t) 1, Timing.sync⟩], none⟩ := by
      simp [subscribe, hcl, hinc, hcli]
    rw [hs]
    exact ⟨rfl, hinv', by simp [hz]⟩
  · have hinc : SubsCounter.include s._subs_counter t = true := by
      simp only [SubsCounter.include, decide_eq_true_eq]
      apply List.count_pos_iff.mp
      have := hcount t
      unfold SubsCounter.countOf at this
      omega
    have hs : subscribe s t cb =
        ⟨{ s with _subs_counter := SubsCounter.add s._subs_counter t,
                  _ascoltatore := Trie.subscribe s._ascoltatore t cb },
          [deferCall Action.done], none⟩ := by
      simp [subscribe, hcl, hinc]
    rw [hs]
    exact ⟨rfl, hinv', by simp [hz]⟩

lemma unsubscribe_step {s : AdapterState} {l : Live} {t : String} {cb : Nat}
    (hinv : Inv s l) (hmem : (t, cb) ∈ l) :
    (unsubscribe s t cb).err = none ∧
    Inv (unsubscribe s t cb).state (l.erase (t, cb)) ∧
    (unsubscribe s t cb).effects =
      (if liveCount l t = 1 then [⟨Action.brokerUnsub (subTopic t), Timing.sync⟩]
       else [deferCall Action.done]) := by
  obtain ⟨hcl, hcli, hcount, hperm⟩ := hinv
  have hpos : 0 < liveCount l t := liveCount_pos_of_mem hmem
  have hcount' : SubsCounter.countOf (SubsCounter.remove s._subs_counter t) t =
      liveCount l t - 1 := by
    rw [countOf_remove, hcount t]
    simp
  have hinv' : Inv
      { s with _ascoltatore := Trie.unsubscribe s._ascoltatore t cb,
               _subs_counter := SubsCounter.remove s._subs_counter t }
      (l.erase (t, cb)) := by
    refine ⟨hcl, hcli, ?_, ?_⟩
    · intro p
      show SubsCounter.countOf (SubsCounter.remove s._subs_counter t) p = _
      rw [countOf_remove, hcount p, liveCount_erase hmem]
    · show (Trie.unsubscribe s._ascoltatore t cb).Perm (l.erase (t, cb))
      unfold Trie.unsubscribe
      exact perm_erase_lawful _ hperm
  by_cases h1 : liveCount l t = 1
  · have hinc : SubsCounter.include (SubsCounter.remove s._subs_counter t) t = false := by
      rw [Bool.eq_false_iff]
      intro hc
      have := (include_iff _ t).mp hc
      omega
    have hs : unsubscribe s t cb =
        ⟨{ s with _ascoltatore := Trie.unsubscribe s._ascoltatore t cb,
                  _subs_counter := SubsCounter.remove s._subs_counter t },
          [⟨Action.brokerUnsub (subTopic t), Timing.sync⟩], none⟩ := by
      simp [unsubscribe, hcl, hinc, hcli]
    rw [hs]
    exact ⟨rfl, hinv', by simp [h1]⟩
  · have hinc : SubsCounter.include (SubsCounter.remove s._subs_counter t) t = true := by
      apply (include_iff _ t).mpr
      omega
    have hs : unsubscribe s t cb =
        ⟨{ s with _ascoltatore := Trie.unsubscribe s._ascoltatore t cb,
                  _subs_counter := SubsCounter.remove s._subs_counter t },
          [deferCall Action.done], none⟩ := by
      simp [unsubscribe, hcl, hinc]
    rw [hs]
    exact ⟨rfl, hinv', by simp [h1]⟩

lemma runEvents_inv_counts {evs : List Event} {l : Live} (hwf : WF evs l) :
    ∀ s : AdapterState, Inv s l →
      Inv (runEvents s evs).1 (liveAfter evs l) ∧
      (∀ t, brokerSubCount t (runEvents s evs).2 = specSubTransitions t evs l ∧
            brokerUnsubCount t (runEvents s evs).2 = specUnsubTransitions t evs l) := by
  induction hwf with
  | nil l => exact fun s hinv => ⟨hinv, fun t => ⟨rfl, rfl⟩⟩
  | @sub u cb evs l hnot hwf' ih =>
    intro s hinv
    obtain ⟨herr, hinv', heff⟩ := subscribe_step hinv hnot
    obtain ⟨hinvF, hcounts⟩ := ih (subscribe s u cb).state hinv'
    refine ⟨hinvF, fun t => ?_⟩
    have hcount := hcounts t
    simp only [runEvents, liveAfter, specSubTransitions, specUnsubTransitions] at *
    constructor
    · rw [brokerSubCount, List.countP_append, ← brokerSubCount, ← brokerSubCount,
        hcount.1, heff]
      by_cases hz : liveCount l u = 0
      · simp only [if_pos hz]
        by_cases hut : u = t
        · subst hut
          simp [brokerSubCount, List.countP_cons, subTopic, hz]
        · have : ¬ (u = t ∧ liveCount l t = 0) := fun hc => hut hc.1
          simp [brokerSubCount, List.countP_cons, subTopic, hut, this]
      · simp only [if_neg hz]
        have : ¬ (u = t ∧ liveCount l t = 0) := by
          rintro ⟨rfl, hc⟩
          exact hz hc
        simp [brokerSubCount, List.countP_cons, deferCall, this]
    · rw [brokerUnsubCount, List.countP_append, ← brokerUnsubCount, ← brokerUnsubCount,
        hcount.2, heff]
      by_cases hz : liveCount l u = 0 <;>
        simp [brokerUnsubCount, List.countP_cons, deferCall, hz]
  | @unsub u cb evs l hmem hwf' ih =>
    intro s hinv
    obtain ⟨herr, hinv', heff⟩ := unsubscribe_step hinv hmem
    obtain ⟨hinvF, hcounts⟩ := ih (unsubscribe s u cb).state hinv'
    refine ⟨hinvF, fun t => ?_⟩
    have hcount := hcounts t
    simp only [runEvents, liveAfter, specSubTransitions, specUnsubTransitions] at *
    constructor
    · rw [brokerSubCount, List.countP_append, ← brokerSubCount, ← brokerSubCount,
        hcount.1, heff]
      by_cases h1 : liveCount l u = 1 <;>
        simp [brokerSubCount, List.countP_cons, deferCall, h1]
    · rw [brokerUnsubCount, List.countP_append, ← brokerUnsubCount, ← brokerUnsubCount,
        hcount.2, heff]
      by_cases h1 : liveCount l u = 1
      · simp only [if_pos h1]
        by_cases hut : u = t
        · subst hut
          simp [brokerUnsubCount, List.countP_cons, subTopic, h1]
        · have : ¬ (u = t ∧ liveCount l t = 1) := fun hc => hut hc.1
          simp [brokerUnsubCount, List.countP_cons, subTopic, hut, this]
      · simp only [if_neg h1]
        have : ¬ (u = t ∧ liveCount l t = 1) := by
          rintro ⟨rfl, hc⟩
          exact h1 hc
        simp [brokerUnsubCount, List.countP_cons, deferCall, this]

/-- C1: over every well-formed interleaving of subscribe/unsubscribe calls
by any number of distinct subscribers (each unsubscribe matching an earlier
subscribe by the same subscriber), the adapter issues exactly one
broker-level subscribe for a pattern per 0→1 transition of that pattern's
subscriber count and exactly one broker-level unsubscribe per 1→0
transition; moreover the broker-subscribe decision of a single subscribe
call is exactly the pre-increment count being zero, so the 0→1 transition is
detected before the counter is incremented. -/
theorem broker_calls_match_transitions (t : String) (evs : List Event) (l : Live)
    (s : AdapterState) (hwf : WF evs l) (hinv : Inv s l) :
    brokerSubCount t (runEvents s evs).2 = specSubTransitions t evs l ∧
    brokerUnsubCount t (runEvents s evs).2 = specUnsubTransitions t evs l ∧
    (∀ u : String, ∀ cb : Nat,
      brokerSubCount u (subscribe s u cb).effects =
        if SubsCounter.countOf s._subs_counter u = 0 then 1 else 0) := by
  obtain ⟨hinvF, hcounts⟩ := runEvents_inv_counts hwf s hinv
  obtain ⟨hcl, hcli, hcount, hperm⟩ := hinv
  refine ⟨(hcounts t).1, (hcounts t).2, ?_⟩
  intro u cb
  by_cases hz : SubsCounter.countOf s._subs_counter u = 0
  · have hinc : SubsCounter.include s._subs_counter u = false := by
      rw [Bool.eq_false_iff]
      intro hc
      have := (include_iff _ u).mp hc
      omega
    simp [subscribe, hcl, hinc, hcli, hz, brokerSubCount, List.countP_cons, subTopic]
  · have hinc : SubsCounter.include s._subs_counter u = true :=
      (include_iff _ u).mpr (Nat.pos_of_ne_zero hz)
    simp [subscribe, hcl, hinc, hz, brokerSubCount, List.countP_cons, deferCall]

/-- Witness for C1: five calls on pattern "a" by three distinct subscribers,
starting from the constructor state. -/
theorem broker_calls_match_transitions_witness :
    WF [Event.sub "a" 1, Event.sub "a" 2, Event.unsub "a" 1, Event.unsub "a" 2,
        Event.sub "a" 3] [] ∧
    Inv initialState [] ∧
    (brokerSubCount "a"
        (runEvents initialState [Event.sub "a" 1, Event.sub "a" 2, Event.unsub "a" 1,
          Event.unsub "a" 2, Event.sub "a" 3]).2 =
      specSubTransitions "a" [Event.sub "a" 1, Event.sub "a" 2, Event.unsub "a" 1,
        Event.unsub "a" 2, Event.sub "a" 3] [] ∧
    brokerUnsubCount "a"
        (runEvents initialState [Event.sub "a" 1, Event.sub "a" 2, Event.unsub "a" 1,
          Event.unsub "a" 2, Event.sub "a" 3]).2 =
      specUnsubTransitions "a" [Event.sub "a" 1, Event.sub "a" 2, Event.unsub "a" 1,
        Event.unsub "a" 2, Event.sub "a" 3] [] ∧
    (∀ u : String, ∀ cb : Nat,
      brokerSubCount u (subscribe initialState u cb).effects =
        if SubsCounter.countOf initialState._subs_counter u = 0 then 1 else 0)) :=
  have hwf : WF [Event.sub "a" 1, Event.sub "a" 2, Event.unsub "a" 1,
      Event.unsub "a" 2, Event.sub "a" 3] [] :=
    WF.sub (by decide)
      (WF.sub (by decide)
        (WF.unsub (by decide)
          (WF.unsub (by decide)
            (WF.sub (by decide) (WF.nil _)))))
  have hinv : Inv initialState [] := ⟨rfl, rfl, fun _ => rfl, List.Perm.nil⟩
  ⟨hwf, hinv,
    broker_calls_match_transitions "a" _ [] initialState hwf hinv⟩

/-- Counterexample to C9 as stated: subscribing the same callback twice to
the same pattern is a completed adapter operation after which the counter
holds count 2 while the dispatch engine holds a single live registration for
that exact pattern (trie registration being idempotent), so the count does
not equal the number of registrations. -/
theorem counter_trie_desync_cex :
    SubsCounter.countOf
        (subscribe (subscribe initialState "a" 1).state "a" 1).state._subs_counter "a" = 2 ∧
    Trie.registrations
        (subscribe (subscribe initialState "a" 1).state "a" 1).state._ascoltatore "a" = 1 ∧
    (2 : Nat) ≠ 1 := by
  refine ⟨?_, ?_, by decide⟩ <;> rfl

/-- C9 amended: after every completed sequence of subscribe and unsubscribe
operations in which no callback is subscribed to a pattern it is already
registered for (and each unsubscribe matches an earlier subscribe), every
pattern's count in the counter equals the number of live (pattern,
subscriber) registrations in the dispatch engine for that exact pattern
string, and the count is positive exactly when the counter includes the
pattern; a duplicate same-callback subscribe breaks the equality, because
the counter counts calls while trie registration is idempotent. -/
theorem counter_trie_sync (evs : List Event) (l : Live) (s : AdapterState)
    (hwf : WF evs l) (hinv : Inv s l) :
    ∀ p : String,
      SubsCounter.countOf (runEvents s evs).1._subs_counter p =
        Trie.registrations (runEvents s evs).1._ascoltatore p ∧
      (0 < SubsCounter.countOf (runEvents s evs).1._subs_counter p ↔
        SubsCounter.include (runEvents s evs).1._subs_counter p = true) := by
  obtain ⟨hinvF, _⟩ := runEvents_inv_counts hwf s hinv
  obtain ⟨_, _, hcount, hperm⟩ := hinvF
  intro p
  constructor
  · rw [hcount p, registrations_eq_liveCount hperm]
  · exact (include_iff _ p).symm

/-- Witness for the amended C9: two distinct subscribers on two patterns,
one later unsubscribed, starting from the constructor state. -/
theorem counter_trie_sync_witness :
    WF [Event.sub "a" 1, Event.sub "b" 2, Event.unsub "a" 1] [] ∧
    Inv initialState [] ∧
    (∀ p : String,
      SubsCounter.countOf
          (runEvents initialState [Event.sub "a" 1, Event.sub "b" 2,
            Event.unsub "a" 1]).1._subs_counter p =
        Trie.registrations
          (runEvents initialState [Event.sub "a" 1, Event.sub "b" 2,
            Event.unsub "a" 1]).1._ascoltatore p ∧
      (0 < SubsCounter.countOf
          (runEvents initialState [Event.sub "a" 1, Event.sub "b" 2,
            Event.unsub "a" 1]).1._subs_counter p ↔
        SubsCounter.include
          (runEvents initialState [Event.sub "a" 1, Event.sub "b" 2,
            Event.unsub "a" 1]).1._subs_counter p = true)) :=
  have hwf : WF [Event.sub "a" 1, Event.sub "b" 2, Event.unsub "a" 1] [] :=
    WF.sub (by decide)
      (WF.sub (by decide)
        (WF.unsub (by decide) (WF.nil _)))
  have hinv : Inv initialState [] := ⟨rfl, rfl, fun _ => rfl, List.Perm.nil⟩
  ⟨hwf, hinv, counter_trie_sync _ [] initialState hwf hinv⟩

end AWSIoT
